import Mathlib

/-!
Shallow embedding of the School-Planner grading, GPA and schedule core.

Python floats are modelled as rationals; Python raised exceptions are
modelled with Except String; Python dicts keyed by strings are modelled
as association lists read through List.lookup.
-/

/-- Python round to an integer: round-half-to-even (bankers rounding),
as performed by the builtin round on a float with no digit argument. -/
def roundHalfEven (q : ℚ) : ℤ :=
  if q - ⌊q⌋ < 1/2 then ⌊q⌋
  else if 1/2 < q - ⌊q⌋ then ⌊q⌋ + 1
  else if ⌊q⌋ % 2 = 0 then ⌊q⌋ else ⌊q⌋ + 1

/-- Python round(x, 2): round to two decimal places, half to even. -/
def pyRound2 (q : ℚ) : ℚ := (roundHalfEven (q * 100) : ℚ) / 100

namespace Grades

/-- From src/src/skoolplannr/core/grades.py: dataclass AssessmentRule. -/
structure AssessmentRule where
  max_raw : ℚ
  reduced_to : ℚ

/-- RULES_BY_CREDITS from grades.py, the dict of per-credit-model rule
tables; an association list keeps the Python dict insertion order. -/
def RULES_BY_CREDITS (credits : ℤ) : Option (List (String × AssessmentRule)) :=
  if credits = 2 then
    some [("ISA1", ⟨30, 25⟩), ("ISA2", ⟨30, 25⟩), ("ESA", ⟨50, 50⟩)]
  else if credits = 4 then
    some [("ISA1", ⟨40, 20⟩), ("ISA2", ⟨40, 20⟩), ("ESA", ⟨100, 50⟩),
          ("A1", ⟨10, 5/2⟩), ("A2", ⟨10, 5/2⟩), ("A3", ⟨10, 5/2⟩), ("A4", ⟨10, 5/2⟩)]
  else if credits = 5 then
    some [("ISA1", ⟨40, 20⟩), ("ISA2", ⟨40, 20⟩), ("ESA", ⟨100, 50⟩),
          ("A1", ⟨10, 5/2⟩), ("A2", ⟨10, 5/2⟩), ("A3", ⟨10, 5/2⟩), ("A4", ⟨10, 5/2⟩),
          ("LAB", ⟨20, 20⟩)]
  else none

/-- The underscore-named scale helper of grades.py: clamp the raw mark to
[0, max_raw] and rescale linearly onto [0, reduced_to]. -/
def scale_to_weighted (raw_score max_raw reduced_to : ℚ) : Except String ℚ :=
  if max_raw ≤ 0 then .error "max_raw must be greater than 0"
  else .ok (max 0 (min raw_score max_raw) / max_raw * reduced_to)

/-- The list comprehension computing the missing component names in
calculate_subject_score: rule-table names absent from the raw-score dict,
in rule-table order. -/
def missingOf (rules : List (String × AssessmentRule)) (raw : List (String × ℚ)) : List String :=
  (rules.filter (fun p => (raw.lookup p.1).isNone)).map Prod.fst

/-- The accumulation loop of calculate_subject_score: total of the scaled
contributions of the rule-table components, read out of the raw dict. -/
def sumWeighted (raw : List (String × ℚ)) : List (String × AssessmentRule) → Except String ℚ
  | [] => .ok 0
  | (name, rule) :: rest =>
    match scale_to_weighted ((raw.lookup name).getD 0) rule.max_raw rule.reduced_to with
    | .error e => .error e
    | .ok w =>
      match sumWeighted raw rest with
      | .error e => .error e
      | .ok s => .ok (w + s)

/-- calculate_subject_score from grades.py with the default round_to = 2. -/
def calculate_subject_score (credits : ℤ) (raw_scores : List (String × ℚ)) : Except String ℚ :=
  match RULES_BY_CREDITS credits with
  | none => .error "Unsupported credit model"
  | some rules =>
    if missingOf rules raw_scores ≠ [] then .error "Missing required assessment scores"
    else
      match sumWeighted raw_scores rules with
      | .error e => .error e
      | .ok total => .ok (pyRound2 total)

/-- to_letter_grade from grades.py: clamp to [0, 100], then the fixed
low-inclusive band chain. -/
def to_letter_grade (score_100 : ℚ) : String :=
  let score := max 0 (min score_100 100)
  if score ≥ 90 then "S"
  else if score ≥ 80 then "A"
  else if score ≥ 70 then "B"
  else if score ≥ 60 then "C"
  else if score ≥ 50 then "D"
  else if score ≥ 40 then "E"
  else "F"

/-- Python str.upper restricted to ASCII data, as applied to the one-letter
grade strings. -/
def pyUpper (s : String) : String := ⟨s.data.map Char.toUpper⟩

/-- to_grade_point from grades.py: the letter-to-point dict lookup on the
uppercased letter, raising on an unknown letter. -/
def to_grade_point (letter_grade : String) : Except String ℤ :=
  match ([("S", (10:ℤ)), ("A", 9), ("B", 8), ("C", 7), ("D", 6), ("E", 5), ("F", 4)].lookup
      (pyUpper letter_grade)) with
  | some p => .ok p
  | none => .error "Unsupported letter grade"

/-- evaluate_subject from grades.py: score, then letter, then point. -/
def evaluate_subject (credits : ℤ) (raw_scores : List (String × ℚ)) :
    Except String (ℚ × String × ℤ) :=
  match calculate_subject_score credits raw_scores with
  | .error e => .error e
  | .ok score =>
    match to_grade_point (to_letter_grade score) with
    | .error e => .error e
    | .ok point => .ok (score, to_letter_grade score, point)

/-- Sum of the reduced_to ceilings of a credit model in RULES_BY_CREDITS. -/
def ceilingSum (credits : ℤ) : ℚ :=
  match RULES_BY_CREDITS credits with
  | some rules => (rules.map (fun p => p.2.reduced_to)).sum
  | none => 0

end Grades

namespace CoreGpa

/-- The accumulation loop of calculate_sgpa in src/src/skoolplannr/core/gpa.py:
entries are (credits, grade_point); raises on a non-positive credit value,
otherwise accumulates the weighted sum and the total credits. -/
def sgpaLoop : List (ℤ × ℤ) → ℚ → ℤ → Except String (ℚ × ℤ)
  | [], w, t => .ok (w, t)
  | (c, g) :: rest, w, t =>
    if c ≤ 0 then .error "Course credits must be greater than 0"
    else sgpaLoop rest (w + (c : ℚ) * (g : ℚ)) (t + c)

/-- calculate_sgpa from core/gpa.py with the default round_to = 2. -/
def calculate_sgpa (course_results : List (ℤ × ℤ)) : Except String ℚ :=
  match sgpaLoop course_results 0 0 with
  | .error e => .error e
  | .ok (w, t) =>
    if t = 0 then .error "Cannot calculate SGPA with zero total credits"
    else .ok (pyRound2 (w / (t : ℚ)))

/-- The accumulation loop of calculate_cgpa in core/gpa.py: entries are
(sgpa, semester_total_credits). -/
def cgpaLoop : List (ℚ × ℤ) → ℚ → ℤ → Except String (ℚ × ℤ)
  | [], w, t => .ok (w, t)
  | (s, c) :: rest, w, t =>
    if c ≤ 0 then .error "Semester credits must be greater than 0"
    else cgpaLoop rest (w + s * (c : ℚ)) (t + c)

/-- calculate_cgpa from core/gpa.py with the default round_to = 2. -/
def calculate_cgpa (semester_results : List (ℚ × ℤ)) : Except String ℚ :=
  match cgpaLoop semester_results 0 0 with
  | .error e => .error e
  | .ok (w, t) =>
    if t = 0 then .error "Cannot calculate CGPA with zero total credits"
    else .ok (pyRound2 (w / (t : ℚ)))

end CoreGpa

namespace AppGpa

/-- CourseResult dataclass from src/app/domain/logic/gpa.py. -/
structure CourseResult where
  credits : ℤ
  grade_point : ℤ

/-- calc_sgpa from app/domain/logic/gpa.py: no per-entry validation; a zero
total-credit denominator returns 0.0 instead of raising. -/
def calc_sgpa (courses : List CourseResult) : ℚ :=
  let weighted : ℚ := (courses.map (fun c => (c.credits : ℚ) * (c.grade_point : ℚ))).sum
  let total : ℤ := (courses.map (fun c => c.credits)).sum
  if total = 0 then 0 else pyRound2 (weighted / (total : ℚ))

end AppGpa

namespace AppGrading

/-- GRADE_BANDS from src/app/domain/logic/grading.py: (low, high, letter,
points) rows, both band ends inclusive, applied to an integer. -/
def GRADE_BANDS : List (ℤ × ℤ × String × ℤ) :=
  [(90, 100, "S", 10), (80, 89, "A", 9), (70, 79, "B", 8), (60, 69, "C", 7),
   (50, 59, "D", 6), (40, 49, "E", 5), (0, 39, "F", 4)]

/-- clamp_0_100 from grading.py. -/
def clamp_0_100 (value : ℚ) : ℚ := max 0 (min 100 value)

/-- grade_from_marks from grading.py: clamp, round to the nearest integer
(Python bankers rounding), then scan the bands; fall back to F/4. -/
def grade_from_marks (marks : ℚ) : String × ℤ :=
  let rounded := roundHalfEven (clamp_0_100 marks)
  match GRADE_BANDS.find? (fun b => decide (b.1 ≤ rounded) && decide (rounded ≤ b.2.1)) with
  | some b => (b.2.2.1, b.2.2.2)
  | none => ("F", 4)

end AppGrading

namespace Dashboard

/-- DAY_NAMES from src/src/skoolplannr/ui/views/dashboard_view.py; index i
is the name of Python weekday i (Monday = 0). -/
def DAY_NAMES : List String := ["Mon", "Tue", "Wed", "Thu", "Fri", "Sat", "Sun"]

/-- The underscore-named to-minutes helper of dashboard_view.py on an
HH:MM string, given its two parsed integer fields. -/
def to_minutes (hour minute : ℕ) : ℕ := hour * 60 + minute

/-- One row of the per-day schedule map built by the schedule-map helper:
times are stored as minutes since midnight (the HH:MM strings of the
source pass through the to-minutes conversion wherever compared). -/
structure SlotEntry where
  subject_name : String
  location : String
  start_minutes : ℕ
  end_minutes : ℕ
deriving DecidableEq

/-- A Python datetime, at the granularity the schedule-day resolver reads:
the calendar day index (consecutive days; weekday = day mod 7, 0 = Monday)
and hour*60+minute within the day. -/
structure PyDateTime where
  day : ℤ
  minutes : ℕ
deriving DecidableEq

/-- Python date.weekday of a calendar day index. -/
def weekday (day : ℤ) : ℕ := (day % 7).toNat

/-- The Python max over the end times of the slots of a day, as used in
the schedule-day resolver (only ever applied to a non-empty list). -/
def latest_end (slots : List SlotEntry) : ℕ :=
  (slots.map (fun s => s.end_minutes)).foldl max 0

/-- The underscore-named pick-schedule-day function of dashboard_view.py.
The schedule dict keyed by the seven day names is modelled as a function
from the weekday index; the result is the chosen calendar day index
(the source returns that day at midnight). -/
def pick_schedule_day (now : PyDateTime) (sched : ℕ → List SlotEntry) : ℤ :=
  let today := now.day
  let todaySlots := sched (weekday today)
  if todaySlots ≠ [] ∧ now.minutes ≤ latest_end todaySlots then today
  else
    match (List.range' 1 7).find? (fun (off : ℕ) => !(sched (weekday (today + (off : ℤ)))).isEmpty) with
    | some off => today + (off : ℤ)
    | none => today

/-- Microseconds per day; datetimes in the due-soon computation are
modelled as microseconds since a midnight-aligned epoch. -/
def usPerDay : ℤ := 86400000000

/-- A value found under due_at or starts_at in a task or event record:
either a real datetime or a string left over from cache restoration. -/
inductive PyTimeVal where
  | dt (t : ℤ)
  | str (s : String)
deriving DecidableEq

/-- A task record as the due-soon filter reads it: only the due_at field
matters; id keeps records distinguishable. none models a missing key. -/
structure TaskRec where
  id : ℕ
  due_at : Option PyTimeVal
deriving DecidableEq

/-- An event record as the upcoming-events filter reads it. -/
structure EventRec where
  id : ℕ
  starts_at : Option PyTimeVal
deriving DecidableEq

/-- Python hasattr(x, "replace"): false for None, true for a datetime and
also true for a str (str has a replace method). -/
def hasattrReplace : Option PyTimeVal → Bool
  | none => false
  | some _ => true

/-- The chained comparison start_today <= due_at <= end_tomorrow of
dashboard_view.py: defined on a datetime, a TypeError on a str. -/
def window_check (s e : ℤ) : PyTimeVal → Except String Bool
  | .dt t => .ok (decide (s ≤ t) && decide (t ≤ e))
  | .str _ => .error "TypeError: a datetime is not comparable with a str"

/-- The due-task collection loop of build_dashboard_view: keep the tasks
whose due_at passes the hasattr test and falls inside the window. -/
def collect_due (s e : ℤ) : List TaskRec → Except String (List TaskRec)
  | [] => .ok []
  | task :: rest =>
    if hasattrReplace task.due_at then
      match window_check s e ((task.due_at).getD (.dt 0)) with
      | .error msg => .error msg
      | .ok b =>
        match collect_due s e rest with
        | .error msg => .error msg
        | .ok r => .ok (if b then task :: r else r)
    else collect_due s e rest

/-- Sort key of the due-task sort: the due_at datetime (every retained
task has one; the default is never read). -/
def due_key (t : TaskRec) : ℤ :=
  match t.due_at with
  | some (.dt v) => v
  | _ => 0

/-- Ordering of tasks by due_at, for the Python stable list sort. -/
def taskLE (a b : TaskRec) : Prop := due_key a ≤ due_key b

instance : DecidableRel taskLE := fun a b => Int.decLe (due_key a) (due_key b)

instance : IsTotal TaskRec taskLE := ⟨fun a b => Int.le_total (due_key a) (due_key b)⟩

instance : IsTrans TaskRec taskLE := ⟨fun _ _ _ h h2 => le_trans h h2⟩

/-- The due-soon computation of build_dashboard_view: start_today is now
with the time fields zeroed, end_tomorrow is two days later minus one
microsecond; filter, then sort ascending by due_at. -/
def build_due_tasks (now : ℤ) (tasks : List TaskRec) : Except String (List TaskRec) :=
  let s := usPerDay * (now / usPerDay)
  let e := s + 2 * usPerDay - 1
  match collect_due s e tasks with
  | .error msg => .error msg
  | .ok l => .ok (List.insertionSort taskLE l)

/-- The comparison start >= now of the upcoming-events loop. -/
def ge_check (now : ℤ) : PyTimeVal → Except String Bool
  | .dt t => .ok (decide (now ≤ t))
  | .str _ => .error "TypeError: a str is not comparable with a datetime"

/-- The upcoming-event collection loop of build_dashboard_view. -/
def collect_upcoming (now : ℤ) : List EventRec → Except String (List EventRec)
  | [] => .ok []
  | event :: rest =>
    if hasattrReplace event.starts_at then
      match ge_check now ((event.starts_at).getD (.dt 0)) with
      | .error msg => .error msg
      | .ok b =>
        match collect_upcoming now rest with
        | .error msg => .error msg
        | .ok r => .ok (if b then event :: r else r)
    else collect_upcoming now rest

/-- Sort key of the upcoming-event sort. -/
def starts_key (ev : EventRec) : ℤ :=
  match ev.starts_at with
  | some (.dt v) => v
  | _ => 0

/-- Ordering of events by starts_at. -/
def eventLE (a b : EventRec) : Prop := starts_key a ≤ starts_key b

instance : DecidableRel eventLE := fun a b => Int.decLe (starts_key a) (starts_key b)

/-- The upcoming-events computation of build_dashboard_view: filter on
starts_at >= now, sort ascending, keep the first three. -/
def build_upcoming (now : ℤ) (events : List EventRec) : Except String (List EventRec) :=
  match collect_upcoming now events with
  | .error msg => .error msg
  | .ok l => .ok ((List.insertionSort eventLE l).take 3)

end Dashboard

namespace Firestore

/-- An assessment document as written by save_assessments_and_grade in
src/src/skoolplannr/services/firestore_service.py. -/
structure AssessDoc where
  typeName : String
  max_raw : ℚ
  weight_to : ℚ
  score_raw : ℚ
  score_weighted : ℚ

/-- A stored grade document; the source dict also carries a boolean field
marking it non-final (always False when stored) and an updated_at
timestamp, neither of which the studied claims read. -/
structure GradeDoc where
  subject_id : String
  subject_name : String
  credits : ℤ
  final_score_100 : ℚ
  letter_grade : String
  grade_point : ℤ

/-- The two return shapes of save_assessments_and_grade: the incomplete
outcome dict carrying the missing component names, or the stored grade
document. -/
inductive SaveOutcome where
  | incomplete (missing : List String) (subject_id : String)
  | graded (doc : GradeDoc)

/-- The per-subject slice of the Firestore state that
save_assessments_and_grade reads and writes: the subject document fields
it uses, the assessments subcollection, and the grade document (none
models a deleted or never-written grade document). -/
structure SubjectStore where
  credits : ℤ
  name : String
  assessments : List (String × AssessDoc)
  grade : Option GradeDoc

/-- Firestore document set keyed by document id: overwrite in place, or
append when absent. -/
def dict_set {α : Type} (m : List (String × α)) (k : String) (v : α) : List (String × α) :=
  if m.any (fun p => p.1 == k) then m.map (fun p => if p.1 == k then (k, v) else p)
  else m ++ [(k, v)]

/-- Firestore document delete keyed by document id. -/
def dict_delete {α : Type} (m : List (String × α)) (k : String) : List (String × α) :=
  m.filter (fun p => !(p.1 == k))

/-- The write loop of save_assessments_and_grade over the rule table: a
component present in the submitted raw scores is written (with its
clamped, scaled, rounded weighted score), an absent one is deleted. -/
def apply_assessment_writes (rules : List (String × Grades.AssessmentRule))
    (raw : List (String × ℚ)) (assessments : List (String × AssessDoc)) :
    List (String × AssessDoc) :=
  rules.foldl (fun acc pr =>
    match raw.lookup pr.1 with
    | some rawv =>
      dict_set acc pr.1
        ⟨pr.1, pr.2.max_raw, pr.2.reduced_to, rawv,
          pyRound2 (max 0 (min rawv pr.2.max_raw) / pr.2.max_raw * pr.2.reduced_to)⟩
    | none => dict_delete acc pr.1) assessments

/-- save_assessments_and_grade from firestore_service.py, for an existing
subject (the source raises earlier when the subject document is absent):
write or delete each assessment document, then either delete the grade
document and report the missing components, or evaluate and store the
grade document. -/
def save_assessments_and_grade (store : SubjectStore) (subject_id : String)
    (raw_scores : List (String × ℚ)) : Except String (SaveOutcome × SubjectStore) :=
  match Grades.RULES_BY_CREDITS store.credits with
  | none => .error "Unsupported credit model for subject."
  | some rules =>
    let assessments2 := apply_assessment_writes rules raw_scores store.assessments
    let missing := Grades.missingOf rules raw_scores
    if missing ≠ [] then
      .ok (SaveOutcome.incomplete missing subject_id,
        { store with assessments := assessments2, grade := none })
    else
      match Grades.evaluate_subject store.credits raw_scores with
      | .error e => .error e
      | .ok (score, letter, point) =>
        let doc : GradeDoc := ⟨subject_id, store.name, store.credits, score, letter, point⟩
        .ok (SaveOutcome.graded doc,
          { store with assessments := assessments2, grade := some doc })

end Firestore

/-- A complete all-maximum raw-score set for the 5-credit model. -/
def rawMax5 : List (String × ℚ) :=
  [("ISA1", 40), ("ISA2", 40), ("ESA", 100), ("A1", 10), ("A2", 10), ("A3", 10),
   ("A4", 10), ("LAB", 20)]

/-- A complete all-maximum raw-score set for the 2-credit model. -/
def rawMax2 : List (String × ℚ) := [("ISA1", 30), ("ISA2", 30), ("ESA", 50)]

/-- A concrete weekly schedule: one slot on Monday ending at minute 660
(11:00) and one slot on Tuesday; no other day has slots. -/
def schedEx : ℕ → List Dashboard.SlotEntry := fun n =>
  if n = 0 then [⟨"Math", "R1", 600, 660⟩]
  else if n = 1 then [⟨"Physics", "R2", 540, 600⟩]
  else []

section RoundingLemmas

theorem roundHalfEven_bounds (q : ℚ) :
    q - 1/2 ≤ (roundHalfEven q : ℚ) ∧ (roundHalfEven q : ℚ) ≤ q + 1/2 := by
  have hfl : (⌊q⌋ : ℚ) ≤ q := Int.floor_le q
  have hfr : q - 1 < (⌊q⌋ : ℚ) := by
    have := Int.lt_floor_add_one q
    linarith
  unfold roundHalfEven
  split_ifs with h1 h2 h3 <;> push_cast <;> constructor <;> linarith

theorem pyRound2_nonneg {q : ℚ} (h : 0 ≤ q) : 0 ≤ pyRound2 q := by
  have hb := (roundHalfEven_bounds (q * 100)).1
  have h1 : (-1 : ℤ) < roundHalfEven (q * 100) := by
    have : (-1 : ℚ) < (roundHalfEven (q * 100) : ℚ) := by linarith
    exact_mod_cast this
  have h0 : (0 : ℚ) ≤ (roundHalfEven (q * 100) : ℚ) := by
    have : (0 : ℤ) ≤ roundHalfEven (q * 100) := by omega
    exact_mod_cast this
  unfold pyRound2
  have h100 : (0 : ℚ) ≤ 100 := by norm_num
  exact div_nonneg h0 h100

theorem pyRound2_le_of_le {q : ℚ} {m : ℤ} (h : q * 100 ≤ (m : ℚ)) :
    pyRound2 q ≤ (m : ℚ) / 100 := by
  have hb := (roundHalfEven_bounds (q * 100)).2
  have h1 : (roundHalfEven (q * 100) : ℚ) < (m : ℚ) + 1 := by linarith
  have h2 : roundHalfEven (q * 100) < m + 1 := by exact_mod_cast h1
  have h3 : (roundHalfEven (q * 100) : ℚ) ≤ (m : ℚ) := by
    have : roundHalfEven (q * 100) ≤ m := by omega
    exact_mod_cast this
  unfold pyRound2
  have h100 : (0 : ℚ) < 100 := by norm_num
  exact (div_le_div_iff_of_pos_right h100).mpr h3

end RoundingLemmas

namespace CoreGpa

theorem sgpaLoop_ok : ∀ (l : List (ℤ × ℤ)), (∀ p ∈ l, 0 < p.1) → ∀ (w : ℚ) (t : ℤ),
    sgpaLoop l w t = .ok (w + (l.map (fun p => (p.1 : ℚ) * (p.2 : ℚ))).sum,
      t + (l.map Prod.fst).sum)
  | [], _, w, t => by simp [sgpaLoop]
  | (c, g) :: rest, hpos, w, t => by
    have hc : 0 < c := hpos (c, g) (List.mem_cons_self _ _)
    have hrec := sgpaLoop_ok rest (fun p hp => hpos p (List.mem_cons_of_mem _ hp))
      (w + (c : ℚ) * (g : ℚ)) (t + c)
    simp only [sgpaLoop, if_neg (by omega : ¬ c ≤ 0), hrec, List.map_cons, List.sum_cons]
    simp [add_assoc]

theorem sgpaLoop_err : ∀ (l : List (ℤ × ℤ)), (∃ p ∈ l, p.1 ≤ 0) → ∀ (w : ℚ) (t : ℤ),
    sgpaLoop l w t = .error "Course credits must be greater than 0"
  | [], h, _, _ => by simp at h
  | (c, g) :: rest, h, w, t => by
    by_cases hc : c ≤ 0
    · simp [sgpaLoop, if_pos hc]
    · have : ∃ p ∈ rest, p.1 ≤ 0 := by
        rcases h with ⟨p, hp, hple⟩
        rcases List.mem_cons.mp hp with h1 | h2
        · rw [h1] at hple
          exact absurd hple hc
        · exact ⟨p, h2, hple⟩
      simp [sgpaLoop, if_neg hc, sgpaLoop_err rest this]

theorem cgpaLoop_ok : ∀ (l : List (ℚ × ℤ)), (∀ p ∈ l, 0 < p.2) → ∀ (w : ℚ) (t : ℤ),
    cgpaLoop l w t = .ok (w + (l.map (fun p => p.1 * (p.2 : ℚ))).sum,
      t + (l.map Prod.snd).sum)
  | [], _, w, t => by simp [cgpaLoop]
  | (s, c) :: rest, hpos, w, t => by
    have hc : 0 < c := hpos (s, c) (List.mem_cons_self _ _)
    have hrec := cgpaLoop_ok rest (fun p hp => hpos p (List.mem_cons_of_mem _ hp))
      (w + s * (c : ℚ)) (t + c)
    simp only [cgpaLoop, if_neg (by omega : ¬ c ≤ 0), hrec, List.map_cons, List.sum_cons]
    simp [add_assoc]

theorem cgpaLoop_err : ∀ (l : List (ℚ × ℤ)), (∃ p ∈ l, p.2 ≤ 0) → ∀ (w : ℚ) (t : ℤ),
    cgpaLoop l w t = .error "Semester credits must be greater than 0"
  | [], h, _, _ => by simp at h
  | (s, c) :: rest, h, w, t => by
    by_cases hc : c ≤ 0
    · simp [cgpaLoop, if_pos hc]
    · have : ∃ p ∈ rest, p.2 ≤ 0 := by
        rcases h with ⟨p, hp, hple⟩
        rcases List.mem_cons.mp hp with h1 | h2
        · rw [h1] at hple
          exact absurd hple hc
        · exact ⟨p, h2, hple⟩
      simp [cgpaLoop, if_neg hc, cgpaLoop_err rest this]

theorem credits_sum_pos (l : List (ℤ × ℤ)) (hne : l ≠ []) (hpos : ∀ p ∈ l, 0 < p.1) :
    0 < (l.map Prod.fst).sum := by
  apply List.sum_pos
  · intro x hx
    rcases List.mem_map.mp hx with ⟨p, hp, rfl⟩
    exact hpos p hp
  · simpa using hne

theorem calculate_sgpa_eq (l : List (ℤ × ℤ)) (hne : l ≠ []) (hpos : ∀ p ∈ l, 0 < p.1) :
    calculate_sgpa l =
      .ok (pyRound2 ((l.map (fun p => (p.1 : ℚ) * (p.2 : ℚ))).sum /
        (((l.map Prod.fst).sum : ℤ) : ℚ))) := by
  have hsum := credits_sum_pos l hne hpos
  simp [calculate_sgpa, sgpaLoop_ok l hpos 0 0, hsum.ne']

theorem calculate_cgpa_eq (l : List (ℚ × ℤ)) (hne : l ≠ []) (hpos : ∀ p ∈ l, 0 < p.2) :
    calculate_cgpa l =
      .ok (pyRound2 ((l.map (fun p => p.1 * (p.2 : ℚ))).sum /
        (((l.map Prod.snd).sum : ℤ) : ℚ))) := by
  have hsum : 0 < (l.map Prod.snd).sum := by
    apply List.sum_pos
    · intro x hx
      rcases List.mem_map.mp hx with ⟨p, hp, rfl⟩
      exact hpos p hp
    · simpa using hne
  simp [calculate_cgpa, cgpaLoop_ok l hpos 0 0, hsum.ne']

end CoreGpa

/-- C7: for every non-empty sequence of (credits, grade_point) pairs with all
credits positive, calculate_sgpa returns the credit-weighted mean rounded to
two decimals, calculate_cgpa does the same over (sgpa, credits) pairs, and in
particular the two quoted examples evaluate to 8.73 and 8.78. -/
theorem gpa_weighted_mean_and_examples :
    (∀ l : List (ℤ × ℤ), l ≠ [] → (∀ p ∈ l, 0 < p.1) →
      CoreGpa.calculate_sgpa l = .ok (pyRound2 ((l.map (fun p => (p.1 : ℚ) * (p.2 : ℚ))).sum /
        (((l.map Prod.fst).sum : ℤ) : ℚ)))) ∧
    (∀ l : List (ℚ × ℤ), l ≠ [] → (∀ p ∈ l, 0 < p.2) →
      CoreGpa.calculate_cgpa l = .ok (pyRound2 ((l.map (fun p => p.1 * (p.2 : ℚ))).sum /
        (((l.map Prod.snd).sum : ℤ) : ℚ)))) ∧
    CoreGpa.calculate_sgpa [(4, 9), (5, 8), (2, 10)] = .ok (873/100) ∧
    CoreGpa.calculate_cgpa [(17/2, 8), (9, 10)] = .ok (878/100) := by
  refine ⟨CoreGpa.calculate_sgpa_eq, CoreGpa.calculate_cgpa_eq, ?_, ?_⟩
  · rw [CoreGpa.calculate_sgpa_eq _ (by simp) (by decide)]
    have harg : ((([((4:ℤ), (9:ℤ)), (5, 8), (2, 10)]).map (fun p => (p.1 : ℚ) * (p.2 : ℚ))).sum /
        ((([((4:ℤ), (9:ℤ)), (5, 8), (2, 10)]).map Prod.fst).sum : ℤ) : ℚ) = 96/11 := by
      norm_num
    rw [harg]
    have hf : ⌊(96:ℚ)/11 * 100⌋ = 872 := by
      rw [Int.floor_eq_iff]
      norm_num
    norm_num [pyRound2, roundHalfEven, hf]
  · rw [CoreGpa.calculate_cgpa_eq _ (by simp) (by decide)]
    have harg : ((([((17:ℚ)/2, (8:ℤ)), (9, 10)]).map (fun p => p.1 * (p.2 : ℚ))).sum /
        ((([((17:ℚ)/2, (8:ℤ)), (9, 10)]).map Prod.snd).sum : ℤ) : ℚ) = 79/9 := by
      norm_num
    rw [harg]
    have hf : ⌊(79:ℚ)/9 * 100⌋ = 877 := by
      rw [Int.floor_eq_iff]
      norm_num
    norm_num [pyRound2, roundHalfEven, hf]

/-- Witness for C7: the closed-form clause applied at a concrete input. -/
theorem gpa_weighted_mean_applied :
    CoreGpa.calculate_sgpa [(1, 10)] =
      .ok (pyRound2 ((([((1:ℤ), (10:ℤ))]).map (fun p => (p.1 : ℚ) * (p.2 : ℚ))).sum /
        ((([((1:ℤ), (10:ℤ))]).map Prod.fst).sum : ℤ))) :=
  gpa_weighted_mean_and_examples.1 [(1, 10)] (by simp) (by decide)

/-- C9: a zero or negative credits entry makes calculate_sgpa and
calculate_cgpa fail with a validation error instead of being skipped, and a
zero total-credit input (such as the empty sequence) also fails. -/
theorem gpa_rejects_nonpositive_credits :
    (∀ l : List (ℤ × ℤ), (∃ p ∈ l, p.1 ≤ 0) →
      CoreGpa.calculate_sgpa l = .error "Course credits must be greater than 0") ∧
    (∀ l : List (ℤ × ℤ), (l.map Prod.fst).sum = 0 →
      ∃ e, CoreGpa.calculate_sgpa l = .error e) ∧
    (∀ l : List (ℚ × ℤ), (∃ p ∈ l, p.2 ≤ 0) →
      CoreGpa.calculate_cgpa l = .error "Semester credits must be greater than 0") ∧
    (∀ l : List (ℚ × ℤ), (l.map Prod.snd).sum = 0 →
      ∃ e, CoreGpa.calculate_cgpa l = .error e) := by
  refine ⟨?_, ?_, ?_, ?_⟩
  · intro l h
    simp [CoreGpa.calculate_sgpa, CoreGpa.sgpaLoop_err l h]
  · intro l hsum
    rcases eq_or_ne l [] with rfl | hne
    · exact ⟨_, rfl⟩
    · by_cases hex : ∃ p ∈ l, p.1 ≤ 0
      · exact ⟨"Course credits must be greater than 0",
          by simp [CoreGpa.calculate_sgpa, CoreGpa.sgpaLoop_err l hex]⟩
      · push_neg at hex
        have hpos : ∀ p ∈ l, 0 < p.1 := fun p hp => by
          have := hex p hp
          omega
        have := CoreGpa.credits_sum_pos l hne hpos
        omega
  · intro l h
    simp [CoreGpa.calculate_cgpa, CoreGpa.cgpaLoop_err l h]
  · intro l hsum
    rcases eq_or_ne l [] with rfl | hne
    · exact ⟨_, rfl⟩
    · by_cases hex : ∃ p ∈ l, p.2 ≤ 0
      · exact ⟨"Semester credits must be greater than 0",
          by simp [CoreGpa.calculate_cgpa, CoreGpa.cgpaLoop_err l hex]⟩
      · push_neg at hex
        have hpos : ∀ p ∈ l, 0 < p.2 := fun p hp => by
          have := hex p hp
          omega
        have hgt : 0 < (l.map Prod.snd).sum := by
          apply List.sum_pos
          · intro x hx
            rcases List.mem_map.mp hx with ⟨p, hp, rfl⟩
            exact hpos p hp
          · simpa using hne
        omega

/-- Witness for C9: the validation clauses applied at concrete inputs. -/
theorem gpa_rejects_nonpositive_credits_applied :
    CoreGpa.calculate_sgpa [(0, 5)] = .error "Course credits must be greater than 0" ∧
    (∃ e, CoreGpa.calculate_cgpa [] = .error e) :=
  ⟨gpa_rejects_nonpositive_credits.1 [(0, 5)] ⟨(0, 5), by simp, by decide⟩,
    gpa_rejects_nonpositive_credits.2.2.2 [] (by simp)⟩

/-- C10 counterexample: on the input ((-1, 5), (3, 4)), whose total credits
are 2 and not 0, calculate_sgpa raises while calc_sgpa returns 3.5, so the
two implementations do not differ only on zero-total-credit inputs. -/
theorem sgpa_implementations_differ_on_nonpositive :
    CoreGpa.calculate_sgpa [(-1, 5), (3, 4)] = .error "Course credits must be greater than 0" ∧
    AppGpa.calc_sgpa [⟨-1, 5⟩, ⟨3, 4⟩] = 7/2 ∧
    (([(-1, 5), (3, 4)] : List (ℤ × ℤ)).map Prod.fst).sum = 2 ∧ ((2 : ℤ) ≠ 0) := by
  refine ⟨rfl, ?_, by decide, by decide⟩
  have hf : ⌊(7:ℚ)/2 * 100⌋ = 350 := by
    rw [Int.floor_eq_iff]
    norm_num
  norm_num [AppGpa.calc_sgpa, pyRound2, roundHalfEven, hf]

/-- C10 amended: the two SGPA implementations agree on every non-empty
all-positive-credits input; they differ on zero-total-credit inputs (error
versus 0.0) and, more generally, whenever some entry has non-positive
credits (error versus a computed value). -/
theorem sgpa_implementations_agree_on_positive :
    (∀ l : List (ℤ × ℤ), l ≠ [] → (∀ p ∈ l, 0 < p.1) →
      CoreGpa.calculate_sgpa l = .ok (AppGpa.calc_sgpa (l.map (fun p => ⟨p.1, p.2⟩)))) ∧
    (∀ l : List (ℤ × ℤ), (l.map Prod.fst).sum = 0 →
      (∃ e, CoreGpa.calculate_sgpa l = .error e) ∧
      AppGpa.calc_sgpa (l.map (fun p => ⟨p.1, p.2⟩)) = 0) ∧
    (∀ l : List (ℤ × ℤ), (∃ p ∈ l, p.1 ≤ 0) →
      ∃ e, CoreGpa.calculate_sgpa l = .error e) := by
  have hmaps : ∀ l : List (ℤ × ℤ),
      ((l.map (fun p : ℤ × ℤ => (⟨p.1, p.2⟩ : AppGpa.CourseResult))).map
        (fun c => (c.credits : ℚ) * (c.grade_point : ℚ))) =
        l.map (fun p => (p.1 : ℚ) * (p.2 : ℚ)) := by
    intro l
    simp [List.map_map]
  have hcred : ∀ l : List (ℤ × ℤ),
      ((l.map (fun p : ℤ × ℤ => (⟨p.1, p.2⟩ : AppGpa.CourseResult))).map
        (fun c => c.credits)) = l.map Prod.fst := by
    intro l
    simp [List.map_map]
  refine ⟨?_, ?_, ?_⟩
  · intro l hne hpos
    rw [CoreGpa.calculate_sgpa_eq l hne hpos]
    have ht := CoreGpa.credits_sum_pos l hne hpos
    simp only [AppGpa.calc_sgpa, hmaps, hcred]
    rw [if_neg ht.ne']
  · intro l hsum
    constructor
    · rcases eq_or_ne l [] with rfl | hne
      · exact ⟨_, rfl⟩
      · by_cases hex : ∃ p ∈ l, p.1 ≤ 0
        · exact ⟨"Course credits must be greater than 0",
            by simp [CoreGpa.calculate_sgpa, CoreGpa.sgpaLoop_err l hex]⟩
        · push_neg at hex
          have hpos : ∀ p ∈ l, 0 < p.1 := fun p hp => by
            have := hex p hp
            omega
          have := CoreGpa.credits_sum_pos l hne hpos
          omega
    · simp only [AppGpa.calc_sgpa, hcred]
      rw [if_pos hsum]
  · intro l hex
    exact ⟨"Course credits must be greater than 0",
      by simp [CoreGpa.calculate_sgpa, CoreGpa.sgpaLoop_err l hex]⟩

/-- Witness for C10: the agreement clause applied at a concrete input. -/
theorem sgpa_implementations_agree_applied :
    CoreGpa.calculate_sgpa [(2, 8)] =
      .ok (AppGpa.calc_sgpa ([((2:ℤ), (8:ℤ))].map (fun p => ⟨p.1, p.2⟩))) :=
  sgpa_implementations_agree_on_positive.1 [(2, 8)] (by simp) (by decide)

/-- C8 counterexample: a score of 89.99 maps to letter A under
to_letter_grade, but grade_from_marks rounds to the nearest integer before
banding and returns S/10 on the same score, so the claimed banding does not
hold for both cited implementations. -/
theorem grade_banding_cex :
    AppGrading.grade_from_marks (8999/100) = ("S", 10) ∧
    Grades.to_letter_grade (8999/100) = "A" ∧ ("S" : String) ≠ "A" := by
  refine ⟨?_, ?_, by decide⟩
  · have hc : AppGrading.clamp_0_100 (8999/100) = 8999/100 := by
      norm_num [AppGrading.clamp_0_100, max_def, min_def]
    have hf : ⌊(8999:ℚ)/100⌋ = 89 := by
      rw [Int.floor_eq_iff]
      norm_num
    have hr : roundHalfEven (8999/100) = 90 := by
      norm_num [roundHalfEven, hf]
    unfold AppGrading.grade_from_marks
    rw [hc, hr]
    decide
  · norm_num [Grades.to_letter_grade, max_def, min_def]

/-- C8 amended: to_letter_grade maps a clamped score through the fixed
low-inclusive bands (90.00 is S, 89.99 is A) and to_grade_point assigns the
matching points; grade_from_marks first rounds the clamped score to the
nearest integer, so it maps 90.00 to S/10 but also 89.99 to S/10. -/
theorem grade_banding_bands (s : ℚ) (h0 : 0 ≤ s) (h1 : s ≤ 100) :
    (90 ≤ s → Grades.to_letter_grade s = "S" ∧
      Grades.to_grade_point (Grades.to_letter_grade s) = .ok 10) ∧
    (80 ≤ s → s < 90 → Grades.to_letter_grade s = "A" ∧
      Grades.to_grade_point (Grades.to_letter_grade s) = .ok 9) ∧
    (70 ≤ s → s < 80 → Grades.to_letter_grade s = "B" ∧
      Grades.to_grade_point (Grades.to_letter_grade s) = .ok 8) ∧
    (60 ≤ s → s < 70 → Grades.to_letter_grade s = "C" ∧
      Grades.to_grade_point (Grades.to_letter_grade s) = .ok 7) ∧
    (50 ≤ s → s < 60 → Grades.to_letter_grade s = "D" ∧
      Grades.to_grade_point (Grades.to_letter_grade s) = .ok 6) ∧
    (40 ≤ s → s < 50 → Grades.to_letter_grade s = "E" ∧
      Grades.to_grade_point (Grades.to_letter_grade s) = .ok 5) ∧
    (s < 40 → Grades.to_letter_grade s = "F" ∧
      Grades.to_grade_point (Grades.to_letter_grade s) = .ok 4) ∧
    Grades.to_letter_grade 90 = "S" ∧
    Grades.to_letter_grade (8999/100) = "A" ∧
    AppGrading.grade_from_marks 90 = ("S", 10) ∧
    AppGrading.grade_from_marks (8999/100) = ("S", 10) := by
  have hs : max 0 (min s 100) = s := by rw [min_eq_left h1, max_eq_right h0]
  refine ⟨?_, ?_, ?_, ?_, ?_, ?_, ?_, ?_, ?_, ?_, ?_⟩
  · intro h
    have hl : Grades.to_letter_grade s = "S" := by
      simp only [Grades.to_letter_grade, hs]
      rw [if_pos (by linarith : s ≥ 90)]
    exact ⟨hl, by rw [hl]; rfl⟩
  · intro h h2
    have hl : Grades.to_letter_grade s = "A" := by
      simp only [Grades.to_letter_grade, hs]
      rw [if_neg (by linarith : ¬ s ≥ 90), if_pos (by linarith : s ≥ 80)]
    exact ⟨hl, by rw [hl]; rfl⟩
  · intro h h2
    have hl : Grades.to_letter_grade s = "B" := by
      simp only [Grades.to_letter_grade, hs]
      rw [if_neg (by linarith : ¬ s ≥ 90), if_neg (by linarith : ¬ s ≥ 80),
        if_pos (by linarith : s ≥ 70)]
    exact ⟨hl, by rw [hl]; rfl⟩
  · intro h h2
    have hl : Grades.to_letter_grade s = "C" := by
      simp only [Grades.to_letter_grade, hs]
      rw [if_neg (by linarith : ¬ s ≥ 90), if_neg (by linarith : ¬ s ≥ 80),
        if_neg (by linarith : ¬ s ≥ 70), if_pos (by linarith : s ≥ 60)]
    exact ⟨hl, by rw [hl]; rfl⟩
  · intro h h2
    have hl : Grades.to_letter_grade s = "D" := by
      simp only [Grades.to_letter_grade, hs]
      rw [if_neg (by linarith : ¬ s ≥ 90), if_neg (by linarith : ¬ s ≥ 80),
        if_neg (by linarith : ¬ s ≥ 70), if_neg (by linarith : ¬ s ≥ 60),
        if_pos (by linarith : s ≥ 50)]
    exact ⟨hl, by rw [hl]; rfl⟩
  · intro h h2
    have hl : Grades.to_letter_grade s = "E" := by
      simp only [Grades.to_letter_grade, hs]
      rw [if_neg (by linarith : ¬ s ≥ 90), if_neg (by linarith : ¬ s ≥ 80),
        if_neg (by linarith : ¬ s ≥ 70), if_neg (by linarith : ¬ s ≥ 60),
        if_neg (by linarith : ¬ s ≥ 50), if_pos (by linarith : s ≥ 40)]
    exact ⟨hl, by rw [hl]; rfl⟩
  · intro h
    have hl : Grades.to_letter_grade s = "F" := by
      simp only [Grades.to_letter_grade, hs]
      rw [if_neg (by linarith : ¬ s ≥ 90), if_neg (by linarith : ¬ s ≥ 80),
        if_neg (by linarith : ¬ s ≥ 70), if_neg (by linarith : ¬ s ≥ 60),
        if_neg (by linarith : ¬ s ≥ 50), if_neg (by linarith : ¬ s ≥ 40)]
    exact ⟨hl, by rw [hl]; rfl⟩
  · norm_num [Grades.to_letter_grade, max_def, min_def]
  · norm_num [Grades.to_letter_grade, max_def, min_def]
  · have hc : AppGrading.clamp_0_100 90 = 90 := by
      norm_num [AppGrading.clamp_0_100, max_def, min_def]
    have hf : ⌊(90:ℚ)⌋ = 90 := by
      rw [Int.floor_eq_iff]
      norm_num
    have hr : roundHalfEven 90 = 90 := by
      norm_num [roundHalfEven, hf]
    unfold AppGrading.grade_from_marks
    rw [hc, hr]
    decide
  · have hc : AppGrading.clamp_0_100 (8999/100) = 8999/100 := by
      norm_num [AppGrading.clamp_0_100, max_def, min_def]
    have hf : ⌊(8999:ℚ)/100⌋ = 89 := by
      rw [Int.floor_eq_iff]
      norm_num
    have hr : roundHalfEven (8999/100) = 90 := by
      norm_num [roundHalfEven, hf]
    unfold AppGrading.grade_from_marks
    rw [hc, hr]
    decide

/-- Witness for C8: the S band clause applied at the score 95. -/
theorem grade_banding_applied :
    Grades.to_letter_grade 95 = "S" ∧
    Grades.to_grade_point (Grades.to_letter_grade 95) = .ok 10 :=
  (grade_banding_bands 95 (by norm_num) (by norm_num)).1 (by norm_num)

theorem scale_bound {raw mr r : ℚ} (hm : 0 < mr) (hr : 0 ≤ r) {w : ℚ}
    (h : Grades.scale_to_weighted raw mr r = .ok w) : 0 ≤ w ∧ w ≤ r := by
  unfold Grades.scale_to_weighted at h
  rw [if_neg (not_le.mpr hm)] at h
  simp only [Except.ok.injEq] at h
  subst h
  have hc0 : (0:ℚ) ≤ max 0 (min raw mr) := le_max_left _ _
  have hcm : max 0 (min raw mr) ≤ mr := max_le hm.le (min_le_right _ _)
  have hdiv0 : (0:ℚ) ≤ max 0 (min raw mr) / mr := div_nonneg hc0 hm.le
  have hdiv1 : max 0 (min raw mr) / mr ≤ 1 := (div_le_one hm).mpr hcm
  constructor
  · exact mul_nonneg hdiv0 hr
  · calc max 0 (min raw mr) / mr * r ≤ 1 * r := mul_le_mul_of_nonneg_right hdiv1 hr
      _ = r := one_mul r

theorem sumWeighted_bound (raw : List (String × ℚ)) :
    ∀ (rules : List (String × Grades.AssessmentRule)),
      (∀ p ∈ rules, 0 < p.2.max_raw ∧ 0 ≤ p.2.reduced_to) →
      ∀ s, Grades.sumWeighted raw rules = .ok s →
        0 ≤ s ∧ s ≤ (rules.map (fun p => p.2.reduced_to)).sum
  | [], _, s, h => by
    simp only [Grades.sumWeighted, Except.ok.injEq] at h
    subst h
    simp
  | (name, rule) :: rest, hp, s, h => by
    have hhead := hp (name, rule) (List.mem_cons_self _ _)
    rcases h1 : Grades.scale_to_weighted ((raw.lookup name).getD 0) rule.max_raw
        rule.reduced_to with e | w
    · rw [Grades.sumWeighted, h1] at h
      exact absurd h (by simp)
    · rcases h2 : Grades.sumWeighted raw rest with e2 | s2
      · rw [Grades.sumWeighted, h1, h2] at h
        exact absurd h (by simp)
      · rw [Grades.sumWeighted, h1, h2] at h
        simp only [Except.ok.injEq] at h
        subst h
        have hw := scale_bound hhead.1 hhead.2 h1
        have hs2 := sumWeighted_bound raw rest
          (fun p hmem => hp p (List.mem_cons_of_mem _ hmem)) s2 h2
        simp only [List.map_cons, List.sum_cons]
        constructor
        · linarith [hw.1, hs2.1]
        · linarith [hw.2, hs2.2]

theorem subject_score_bound (credits : ℤ) (raw : List (String × ℚ)) (sc : ℚ)
    (h : Grades.calculate_subject_score credits raw = .ok sc) :
    0 ≤ sc ∧ sc ≤ Grades.ceilingSum credits := by
  unfold Grades.calculate_subject_score at h
  rcases hR : Grades.RULES_BY_CREDITS credits with _ | rules
  · rw [hR] at h
    exact absurd h (by simp)
  · rw [hR] at h
    dsimp only at h
    by_cases hm : Grades.missingOf rules raw ≠ []
    · rw [if_pos hm] at h
      exact absurd h (by simp)
    · rw [if_neg hm] at h
      rcases h2 : Grades.sumWeighted raw rules with e | total
      · rw [h2] at h
        exact absurd h (by simp)
      · rw [h2] at h
        simp only [Except.ok.injEq] at h
        subst h
        have hceil : Grades.ceilingSum credits =
            (rules.map (fun p => p.2.reduced_to)).sum := by
          unfold Grades.ceilingSum
          rw [hR]
        unfold Grades.RULES_BY_CREDITS at hR
        split_ifs at hR with hc2 hc4 hc5
        · injection hR with hRe
          subst hRe
          have hrules : ∀ p ∈ ([("ISA1", ⟨30, 25⟩), ("ISA2", ⟨30, 25⟩), ("ESA", ⟨50, 50⟩)] :
              List (String × Grades.AssessmentRule)),
              0 < p.2.max_raw ∧ 0 ≤ p.2.reduced_to := by
            intro p hp
            fin_cases hp <;> exact ⟨by norm_num, by norm_num⟩
          have hsum : (([("ISA1", ⟨30, 25⟩), ("ISA2", ⟨30, 25⟩), ("ESA", ⟨50, 50⟩)] :
              List (String × Grades.AssessmentRule)).map (fun p => p.2.reduced_to)).sum
              = 100 := by
            norm_num
          have hb := sumWeighted_bound raw _ hrules total h2
          refine ⟨pyRound2_nonneg hb.1, ?_⟩
          rw [hceil, hsum]
          have hle : pyRound2 total ≤ ((10000 : ℤ) : ℚ) / 100 := by
            apply pyRound2_le_of_le
            push_cast
            rw [hsum] at hb
            linarith [hb.2]
          calc pyRound2 total ≤ ((10000 : ℤ) : ℚ) / 100 := hle
            _ = 100 := by norm_num
        · injection hR with hRe
          subst hRe
          have hrules : ∀ p ∈ ([("ISA1", ⟨40, 20⟩), ("ISA2", ⟨40, 20⟩), ("ESA", ⟨100, 50⟩),
              ("A1", ⟨10, 5/2⟩), ("A2", ⟨10, 5/2⟩), ("A3", ⟨10, 5/2⟩), ("A4", ⟨10, 5/2⟩)] :
              List (String × Grades.AssessmentRule)),
              0 < p.2.max_raw ∧ 0 ≤ p.2.reduced_to := by
            intro p hp
            fin_cases hp <;> exact ⟨by norm_num, by norm_num⟩
          have hsum : (([("ISA1", ⟨40, 20⟩), ("ISA2", ⟨40, 20⟩), ("ESA", ⟨100, 50⟩),
              ("A1", ⟨10, 5/2⟩), ("A2", ⟨10, 5/2⟩), ("A3", ⟨10, 5/2⟩), ("A4", ⟨10, 5/2⟩)] :
              List (String × Grades.AssessmentRule)).map (fun p => p.2.reduced_to)).sum
              = 100 := by
            norm_num
          have hb := sumWeighted_bound raw _ hrules total h2
          refine ⟨pyRound2_nonneg hb.1, ?_⟩
          rw [hceil, hsum]
          have hle : pyRound2 total ≤ ((10000 : ℤ) : ℚ) / 100 := by
            apply pyRound2_le_of_le
            push_cast
            rw [hsum] at hb
            linarith [hb.2]
          calc pyRound2 total ≤ ((10000 : ℤ) : ℚ) / 100 := hle
            _ = 100 := by norm_num
        · injection hR with hRe
          subst hRe
          have hrules : ∀ p ∈ ([("ISA1", ⟨40, 20⟩), ("ISA2", ⟨40, 20⟩), ("ESA", ⟨100, 50⟩),
              ("A1", ⟨10, 5/2⟩), ("A2", ⟨10, 5/2⟩), ("A3", ⟨10, 5/2⟩), ("A4", ⟨10, 5/2⟩),
              ("LAB", ⟨20, 20⟩)] :
              List (String × Grades.AssessmentRule)),
              0 < p.2.max_raw ∧ 0 ≤ p.2.reduced_to := by
            intro p hp
            fin_cases hp <;> exact ⟨by norm_num, by norm_num⟩
          have hsum : (([("ISA1", ⟨40, 20⟩), ("ISA2", ⟨40, 20⟩), ("ESA", ⟨100, 50⟩),
              ("A1", ⟨10, 5/2⟩), ("A2", ⟨10, 5/2⟩), ("A3", ⟨10, 5/2⟩), ("A4", ⟨10, 5/2⟩),
              ("LAB", ⟨20, 20⟩)] :
              List (String × Grades.AssessmentRule)).map (fun p => p.2.reduced_to)).sum
              = 120 := by
            norm_num
          have hb := sumWeighted_bound raw _ hrules total h2
          refine ⟨pyRound2_nonneg hb.1, ?_⟩
          rw [hceil, hsum]
          have hle : pyRound2 total ≤ ((12000 : ℤ) : ℚ) / 100 := by
            apply pyRound2_le_of_le
            push_cast
            rw [hsum] at hb
            linarith [hb.2]
          calc pyRound2 total ≤ ((12000 : ℤ) : ℚ) / 100 := hle
            _ = 120 := by norm_num


/-- C1 counterexample: the 5-credit model's reduced ceilings sum to 120,
not 100, and a complete all-maximum raw-score set for that model evaluates
to the score 120, which is outside [0, 100]. -/
theorem ceiling_sum_model5_cex :
    Grades.ceilingSum 5 = 120 ∧ Grades.ceilingSum 5 ≠ 100 ∧
    Grades.calculate_subject_score 5 rawMax5 = .ok 120 ∧ ¬ ((120 : ℚ) ≤ 100) := by
  have h120 : Grades.ceilingSum 5 = 120 := by
    norm_num [Grades.ceilingSum, show Grades.RULES_BY_CREDITS 5 =
      some [("ISA1", ⟨40, 20⟩), ("ISA2", ⟨40, 20⟩), ("ESA", ⟨100, 50⟩),
            ("A1", ⟨10, 5/2⟩), ("A2", ⟨10, 5/2⟩), ("A3", ⟨10, 5/2⟩), ("A4", ⟨10, 5/2⟩),
            ("LAB", ⟨20, 20⟩)] from rfl]
  refine ⟨h120, by rw [h120]; norm_num, ?_, by norm_num⟩
  have l1 : rawMax5.lookup "ISA1" = some 40 := rfl
  have l2 : rawMax5.lookup "ISA2" = some 40 := rfl
  have l3 : rawMax5.lookup "ESA" = some 100 := rfl
  have l4 : rawMax5.lookup "A1" = some 10 := rfl
  have l5 : rawMax5.lookup "A2" = some 10 := rfl
  have l6 : rawMax5.lookup "A3" = some 10 := rfl
  have l7 : rawMax5.lookup "A4" = some 10 := rfl
  have l8 : rawMax5.lookup "LAB" = some 20 := rfl
  have hf : ⌊(120:ℚ) * 100⌋ = 12000 := by
    rw [Int.floor_eq_iff]
    norm_num
  norm_num [Grades.calculate_subject_score, Grades.RULES_BY_CREDITS, Grades.missingOf,
    Grades.sumWeighted, Grades.scale_to_weighted, l1, l2, l3, l4, l5, l6, l7, l8,
    max_def, min_def, pyRound2, roundHalfEven, hf]

/-- C1 amended: the reduced ceilings sum to 100.00 for the 2- and 4-credit
models but to 120.00 for the 5-credit model, and every score returned by
calculate_subject_score lies in [0, S] where S is the ceiling sum of its
credit model (so in [0, 100] for 2 and 4 credits and in [0, 120] for 5). -/
theorem ceiling_sums_and_score_range :
    Grades.ceilingSum 2 = 100 ∧ Grades.ceilingSum 4 = 100 ∧ Grades.ceilingSum 5 = 120 ∧
    ∀ (credits : ℤ) (raw : List (String × ℚ)) (sc : ℚ),
      Grades.calculate_subject_score credits raw = .ok sc →
      0 ≤ sc ∧ sc ≤ Grades.ceilingSum credits := by
  refine ⟨?_, ?_, ?_, subject_score_bound⟩
  · norm_num [Grades.ceilingSum, show Grades.RULES_BY_CREDITS 2 =
      some [("ISA1", ⟨30, 25⟩), ("ISA2", ⟨30, 25⟩), ("ESA", ⟨50, 50⟩)] from rfl]
  · norm_num [Grades.ceilingSum, show Grades.RULES_BY_CREDITS 4 =
      some [("ISA1", ⟨40, 20⟩), ("ISA2", ⟨40, 20⟩), ("ESA", ⟨100, 50⟩),
            ("A1", ⟨10, 5/2⟩), ("A2", ⟨10, 5/2⟩), ("A3", ⟨10, 5/2⟩), ("A4", ⟨10, 5/2⟩)]
      from rfl]
  · norm_num [Grades.ceilingSum, show Grades.RULES_BY_CREDITS 5 =
      some [("ISA1", ⟨40, 20⟩), ("ISA2", ⟨40, 20⟩), ("ESA", ⟨100, 50⟩),
            ("A1", ⟨10, 5/2⟩), ("A2", ⟨10, 5/2⟩), ("A3", ⟨10, 5/2⟩), ("A4", ⟨10, 5/2⟩),
            ("LAB", ⟨20, 20⟩)] from rfl]

/-- Witness for C1: the score-range clause applied to a complete raw-score
set of the 2-credit model, whose score evaluates to 100. -/
theorem ceiling_sums_and_score_range_applied :
    0 ≤ (100 : ℚ) ∧ (100 : ℚ) ≤ Grades.ceilingSum 2 := by
  apply ceiling_sums_and_score_range.2.2.2 2 rawMax2 100
  have l1 : rawMax2.lookup "ISA1" = some 30 := rfl
  have l2 : rawMax2.lookup "ISA2" = some 30 := rfl
  have l3 : rawMax2.lookup "ESA" = some 50 := rfl
  have hf : ⌊(100:ℚ) * 100⌋ = 10000 := by
    rw [Int.floor_eq_iff]
    norm_num
  norm_num [Grades.calculate_subject_score, Grades.RULES_BY_CREDITS, Grades.missingOf,
    Grades.sumWeighted, Grades.scale_to_weighted, l1, l2, l3,
    max_def, min_def, pyRound2, roundHalfEven, hf]

theorem lookup_cons_ne {β : Type} (name n : String) (v : β) (raw : List (String × β))
    (h : n ≠ name) : ((name, v) :: raw).lookup n = raw.lookup n := by
  simp [List.lookup, beq_eq_false_iff_ne.mpr h]

theorem missingOf_cons_unknown (rules : List (String × Grades.AssessmentRule))
    (raw : List (String × ℚ)) (name : String) (v : ℚ)
    (h : name ∉ rules.map Prod.fst) :
    Grades.missingOf rules ((name, v) :: raw) = Grades.missingOf rules raw := by
  unfold Grades.missingOf
  congr 1
  apply List.filter_congr
  intro p hp
  have hne : p.1 ≠ name := by
    intro he
    exact h (he ▸ List.mem_map_of_mem Prod.fst hp)
  rw [lookup_cons_ne name p.1 v raw hne]

theorem sumWeighted_cons_unknown (raw : List (String × ℚ)) (name : String) (v : ℚ) :
    ∀ rules : List (String × Grades.AssessmentRule), name ∉ rules.map Prod.fst →
      Grades.sumWeighted ((name, v) :: raw) rules = Grades.sumWeighted raw rules
  | [], _ => rfl
  | (n, rule) :: rest, h => by
    have hn : n ≠ name := by
      intro he
      exact h (by simp [he])
    have hrest : name ∉ rest.map Prod.fst := by
      intro hmem
      exact h (by simp [hmem])
    simp only [Grades.sumWeighted, lookup_cons_ne name n v raw hn,
      sumWeighted_cons_unknown raw name v rest hrest]

/-- C2 counterexample: a raw-score set carrying the unknown component name
EXTRA is evaluated to the same successful score as the same set without it;
no validation error is signalled and the unknown key has no effect. -/
theorem unknown_component_cex :
    Grades.calculate_subject_score 2 [("ISA1", 10), ("ISA2", 10), ("ESA", 10), ("EXTRA", 99)] =
      .ok (2667/100) ∧
    Grades.calculate_subject_score 2 [("ISA1", 10), ("ISA2", 10), ("ESA", 10)] =
      .ok (2667/100) := by
  constructor
  · have l1 : ([("ISA1", (10:ℚ)), ("ISA2", 10), ("ESA", 10), ("EXTRA", 99)]).lookup "ISA1"
        = some 10 := rfl
    have l2 : ([("ISA1", (10:ℚ)), ("ISA2", 10), ("ESA", 10), ("EXTRA", 99)]).lookup "ISA2"
        = some 10 := rfl
    have l3 : ([("ISA1", (10:ℚ)), ("ISA2", 10), ("ESA", 10), ("EXTRA", 99)]).lookup "ESA"
        = some 10 := rfl
    have hf : ⌊(80:ℚ)/3 * 100⌋ = 2666 := by
      rw [Int.floor_eq_iff]
      norm_num
    norm_num [Grades.calculate_subject_score, Grades.RULES_BY_CREDITS, Grades.missingOf,
      Grades.sumWeighted, Grades.scale_to_weighted, l1, l2, l3,
      max_def, min_def, pyRound2, roundHalfEven, hf]
  · have l1 : ([("ISA1", (10:ℚ)), ("ISA2", 10), ("ESA", 10)]).lookup "ISA1" = some 10 := rfl
    have l2 : ([("ISA1", (10:ℚ)), ("ISA2", 10), ("ESA", 10)]).lookup "ISA2" = some 10 := rfl
    have l3 : ([("ISA1", (10:ℚ)), ("ISA2", 10), ("ESA", 10)]).lookup "ESA" = some 10 := rfl
    have hf : ⌊(80:ℚ)/3 * 100⌋ = 2666 := by
      rw [Int.floor_eq_iff]
      norm_num
    norm_num [Grades.calculate_subject_score, Grades.RULES_BY_CREDITS, Grades.missingOf,
      Grades.sumWeighted, Grades.scale_to_weighted, l1, l2, l3,
      max_def, min_def, pyRound2, roundHalfEven, hf]

/-- C2 amended: a component name outside the credit model's rule table is
silently ignored by subject evaluation: adding such an entry to the raw
score set leaves the result of calculate_subject_score unchanged, and no
validation error is raised because of it. -/
theorem unknown_component_ignored :
    ∀ (credits : ℤ) (raw : List (String × ℚ)) (name : String) (v : ℚ)
      (rules : List (String × Grades.AssessmentRule)),
      Grades.RULES_BY_CREDITS credits = some rules →
      name ∉ rules.map Prod.fst →
      Grades.calculate_subject_score credits ((name, v) :: raw) =
        Grades.calculate_subject_score credits raw := by
  intro credits raw name v rules hR hnm
  unfold Grades.calculate_subject_score
  rw [hR]
  dsimp only
  rw [missingOf_cons_unknown rules raw name v hnm,
    sumWeighted_cons_unknown raw name v rules hnm]

/-- Witness for C2: the amended statement applied to the unknown name ZZZ
under the 4-credit model. -/
theorem unknown_component_ignored_applied :
    Grades.calculate_subject_score 4 [("ZZZ", 1)] = Grades.calculate_subject_score 4 [] :=
  unknown_component_ignored 4 [] "ZZZ" 1
    [("ISA1", ⟨40, 20⟩), ("ISA2", ⟨40, 20⟩), ("ESA", ⟨100, 50⟩),
     ("A1", ⟨10, 5/2⟩), ("A2", ⟨10, 5/2⟩), ("A3", ⟨10, 5/2⟩), ("A4", ⟨10, 5/2⟩)]
    rfl (by decide)

theorem missingOf_mem (rules : List (String × Grades.AssessmentRule))
    (raw : List (String × ℚ)) (n : String) :
    n ∈ Grades.missingOf rules raw ↔ n ∈ rules.map Prod.fst ∧ raw.lookup n = none := by
  unfold Grades.missingOf
  simp only [List.mem_map, List.mem_filter, Option.isNone_iff_eq_none]
  constructor
  · rintro ⟨p, ⟨hp, hnone⟩, rfl⟩
    exact ⟨⟨p, hp, rfl⟩, hnone⟩
  · rintro ⟨⟨p, hp, rfl⟩, hlook⟩
    exact ⟨p, ⟨hp, hlook⟩, rfl⟩

/-- C3: when a score submission leaves at least one required component of
the subject's credit model absent, save_assessments_and_grade returns the
incomplete outcome carrying exactly the still-missing component names (the
rule-table names with no entry in the submitted raw scores), and the stored
grade document of the subject is deleted, whatever was stored before. -/
theorem grade_retraction (store : Firestore.SubjectStore) (sid : String)
    (raw : List (String × ℚ)) (rules : List (String × Grades.AssessmentRule))
    (gdoc : Firestore.GradeDoc)
    (_hprev : store.grade = some gdoc)
    (hR : Grades.RULES_BY_CREDITS store.credits = some rules)
    (hmiss : Grades.missingOf rules raw ≠ []) :
    ∃ store2 : Firestore.SubjectStore,
      Firestore.save_assessments_and_grade store sid raw =
        .ok (Firestore.SaveOutcome.incomplete (Grades.missingOf rules raw) sid, store2) ∧
      store2.grade = none ∧
      (∀ n, n ∈ Grades.missingOf rules raw ↔
        n ∈ rules.map Prod.fst ∧ raw.lookup n = none) := by
  unfold Firestore.save_assessments_and_grade
  rw [hR]
  dsimp only
  rw [if_pos hmiss]
  exact ⟨_, rfl, rfl, fun n => missingOf_mem rules raw n⟩

/-- Witness for C3: a subject of the 2-credit model holding a stored final
grade, resubmitted with only ISA1, yields the incomplete outcome and a
deleted grade document. -/
theorem grade_retraction_applied :
    ∃ store2 : Firestore.SubjectStore,
      Firestore.save_assessments_and_grade ⟨2, "Math", [], some ⟨"s1", "Math", 2, 100, "S", 10⟩⟩
          "s1" [("ISA1", 20)] =
        .ok (Firestore.SaveOutcome.incomplete
          (Grades.missingOf [("ISA1", ⟨30, 25⟩), ("ISA2", ⟨30, 25⟩), ("ESA", ⟨50, 50⟩)]
            [("ISA1", 20)]) "s1", store2) ∧
      store2.grade = none ∧
      (∀ n, n ∈ Grades.missingOf [("ISA1", ⟨30, 25⟩), ("ISA2", ⟨30, 25⟩), ("ESA", ⟨50, 50⟩)]
          [("ISA1", 20)] ↔
        n ∈ ([("ISA1", ⟨30, 25⟩), ("ISA2", ⟨30, 25⟩), ("ESA", ⟨50, 50⟩)] :
          List (String × Grades.AssessmentRule)).map Prod.fst ∧
        ([("ISA1", (20:ℚ))]).lookup n = none) :=
  grade_retraction _ _ _ _ ⟨"s1", "Math", 2, 100, "S", 10⟩ rfl rfl (by decide)

namespace Dashboard

theorem weekday_lt (d : ℤ) : weekday d < 7 := by
  unfold weekday
  have h1 := Int.emod_lt_of_pos d (by norm_num : (0:ℤ) < 7)
  have h2 := Int.emod_nonneg d (by norm_num : (7:ℤ) ≠ 0)
  omega

theorem le_foldl_max (x : ℕ) : ∀ (l : List ℕ) (init : ℕ),
    x ≤ l.foldl max init ↔ x ≤ init ∨ ∃ a ∈ l, x ≤ a
  | [], init => by simp
  | b :: l, init => by
    rw [List.foldl_cons, le_foldl_max x l (max init b)]
    constructor
    · rintro (h | h)
      · rcases le_max_iff.mp h with h1 | h1
        · exact .inl h1
        · exact .inr ⟨b, by simp, h1⟩
      · rcases h with ⟨a, ha, hx⟩
        exact .inr ⟨a, by simp [ha], hx⟩
    · rintro (h | ⟨a, ha, hx⟩)
      · exact .inl (le_max_of_le_left h)
      · rcases List.mem_cons.mp ha with rfl | ha2
        · exact .inl (le_max_of_le_right hx)
        · exact .inr ⟨a, ha2, hx⟩

theorem live_cond_iff (now : ℕ) (slots : List SlotEntry) :
    (slots ≠ [] ∧ now ≤ latest_end slots) ↔ ∃ s ∈ slots, now ≤ s.end_minutes := by
  constructor
  · rintro ⟨hne, hle⟩
    unfold latest_end at hle
    rcases (le_foldl_max now _ _).mp hle with h | ⟨a, ha, hx⟩
    · rcases slots with _ | ⟨s, rest⟩
      · exact absurd rfl hne
      · exact ⟨s, by simp, by omega⟩
    · rcases List.mem_map.mp ha with ⟨s, hs, rfl⟩
      exact ⟨s, hs, hx⟩
  · rintro ⟨s, hs, hx⟩
    refine ⟨List.ne_nil_of_mem hs, ?_⟩
    unfold latest_end
    exact (le_foldl_max now _ _).mpr (.inr ⟨s.end_minutes, List.mem_map_of_mem _ hs, hx⟩)

theorem range'_find?_eq_some {p : ℕ → Bool} : ∀ (start len k : ℕ), start ≤ k →
    k < start + len → p k = true → (∀ j, start ≤ j → j < k → p j = false) →
    (List.range' start len).find? p = some k
  | start, 0, k, h1, h2, _, _ => by omega
  | start, len+1, k, h1, h2, hk, hless => by
    rw [List.range'_succ, List.find?_cons]
    rcases eq_or_lt_of_le h1 with rfl | hlt
    · rw [hk]
    · rw [hless start le_rfl hlt]
      exact range'_find?_eq_some (start+1) len k hlt (by omega) hk
        (fun j hj1 hj2 => hless j (by omega) hj2)

/-- C4 amended: schedule-day resolution returns today exactly when some slot
of the current weekday has an end time at or after the time-of-day of now
(minute granularity, end inclusive); otherwise it returns the first of the
next seven calendar days whose weekday has a slot, wrapping across the week;
and when no weekday has any slot it returns today, whose slot list is then
empty. -/
theorem schedule_day_resolution (now : PyDateTime) (sched : ℕ → List SlotEntry) :
    ((∃ s ∈ sched (weekday now.day), now.minutes ≤ s.end_minutes) →
      pick_schedule_day now sched = now.day) ∧
    (¬ (∃ s ∈ sched (weekday now.day), now.minutes ≤ s.end_minutes) →
      ∀ k : ℕ, 1 ≤ k → k ≤ 7 → sched (weekday (now.day + (k:ℤ))) ≠ [] →
        (∀ j : ℕ, 1 ≤ j → j < k → sched (weekday (now.day + (j:ℤ))) = []) →
        pick_schedule_day now sched = now.day + (k:ℤ)) ∧
    ((∀ d : ℕ, d < 7 → sched d = []) →
      pick_schedule_day now sched = now.day ∧ sched (weekday now.day) = []) := by
  refine ⟨?_, ?_, ?_⟩
  · intro h
    unfold pick_schedule_day
    rw [if_pos ((live_cond_iff now.minutes (sched (weekday now.day))).mpr h)]
  · intro h k hk1 hk7 hkne hjall
    unfold pick_schedule_day
    rw [if_neg (fun hc => h ((live_cond_iff now.minutes (sched (weekday now.day))).mp hc))]
    have hfind : (List.range' 1 7).find?
        (fun (off : ℕ) => !(sched (weekday (now.day + (off : ℤ)))).isEmpty) = some k := by
      apply range'_find?_eq_some 1 7 k hk1 (by omega)
      · simp [List.isEmpty_iff, hkne]
      · intro j hj1 hj2
        simp [List.isEmpty_iff, hjall j hj1 hj2]
    rw [hfind]
  · intro h
    have htoday : sched (weekday now.day) = [] := h _ (weekday_lt now.day)
    constructor
    · unfold pick_schedule_day
      rw [if_neg (by simp [htoday])]
      have hfind : (List.range' 1 7).find?
          (fun (off : ℕ) => !(sched (weekday (now.day + (off : ℤ)))).isEmpty) = none := by
        apply List.find?_eq_none.mpr
        intro x hx
        simp [List.isEmpty_iff, h _ (weekday_lt (now.day + (x:ℤ)))]
      rw [hfind]
    · exact htoday

end Dashboard

/-- C4 counterexample: at 11:00 on a Monday whose only slot ends exactly at
11:00, no slot end is still strictly in the future and Tuesday has a slot,
yet the resolver stays on Monday (day 0) instead of advancing to day 1 as
the claim, read with a strict notion of future, requires. -/
theorem schedule_day_resolution_cex :
    Dashboard.pick_schedule_day ⟨0, 660⟩ schedEx = 0 ∧
    (∀ s ∈ schedEx (Dashboard.weekday 0), ¬ (660 < s.end_minutes)) ∧
    schedEx (Dashboard.weekday 1) ≠ [] ∧ (0 : ℤ) ≠ 1 := by decide

/-- Witness for C4: the today clause applied at 10:30 on the same Monday. -/
theorem schedule_day_resolution_applied :
    Dashboard.pick_schedule_day ⟨0, 630⟩ schedEx = 0 :=
  (Dashboard.schedule_day_resolution ⟨0, 630⟩ schedEx).1 ⟨⟨"Math", "R1", 600, 660⟩, by decide, by decide⟩

namespace Dashboard

theorem collect_due_all_dt (s e : ℤ) : ∀ (tasks : List TaskRec),
    (∀ t ∈ tasks, ∃ v : ℤ, t.due_at = some (.dt v)) →
    collect_due s e tasks = .ok (tasks.filter (fun t =>
      match t.due_at with
      | some (.dt v) => decide (s ≤ v) && decide (v ≤ e)
      | _ => false))
  | [], _ => rfl
  | task :: rest, hall => by
    rcases hall task (List.mem_cons_self _ _) with ⟨v, hv⟩
    have hrec := collect_due_all_dt s e rest
      (fun t ht => hall t (List.mem_cons_of_mem _ ht))
    simp only [collect_due, hv, hasattrReplace, Option.getD, window_check, hrec,
      List.filter_cons]
    by_cases hb : (decide (s ≤ v) && decide (v ≤ e)) = true
    · simp [hb]
    · simp [hb]

theorem build_due_tasks_all_dt (now : ℤ) (tasks : List TaskRec)
    (hall : ∀ t ∈ tasks, ∃ v : ℤ, t.due_at = some (.dt v)) :
    build_due_tasks now tasks = .ok (List.insertionSort taskLE (tasks.filter (fun t =>
      match t.due_at with
      | some (.dt v) =>
        decide (usPerDay * (now / usPerDay) ≤ v) &&
          decide (v ≤ usPerDay * (now / usPerDay) + 2 * usPerDay - 1)
      | _ => false))) := by
  simp only [build_due_tasks]
  rw [collect_due_all_dt _ _ tasks hall]

/-- C5: for tasks whose due_at values are all datetimes, the due-soon
computation succeeds and returns exactly the tasks whose due_at lies in
[start of today, start of the day after tomorrow), that is, from midnight
of the current day through the end of the following day (a task due exactly
at start-of-tomorrow is inside the window, one due at or past the end of
tomorrow plus one microsecond is not), sorted ascending by due_at. -/
theorem due_soon_window (now : ℤ) (tasks : List TaskRec)
    (hall : ∀ t ∈ tasks, ∃ v : ℤ, t.due_at = some (.dt v)) :
    ∃ l, build_due_tasks now tasks = .ok l ∧
      (∀ t, t ∈ l ↔ t ∈ tasks ∧ ∃ v : ℤ, t.due_at = some (.dt v) ∧
        usPerDay * (now / usPerDay) ≤ v ∧ v < usPerDay * (now / usPerDay) + 2 * usPerDay) ∧
      l.Sorted taskLE := by
  refine ⟨_, build_due_tasks_all_dt now tasks hall, ?_, List.sorted_insertionSort taskLE _⟩
  intro t
  rw [(List.perm_insertionSort taskLE _).mem_iff, List.mem_filter]
  constructor
  · rintro ⟨ht, hp⟩
    rcases hall t ht with ⟨v, hv⟩
    rw [hv] at hp
    simp only [decide_eq_true_eq, Bool.and_eq_true] at hp
    exact ⟨ht, v, hv, hp.1, by omega⟩
  · rintro ⟨ht, v, hv, h1, h2⟩
    refine ⟨ht, ?_⟩
    rw [hv]
    simp only [decide_eq_true_eq, Bool.and_eq_true]
    exact ⟨h1, by omega⟩

end Dashboard

/-- C6: the due-soon and upcoming-events computations are not total on
string-valued timestamps: a str passes the hasattr replace test (str has a
replace method) and then crashes the datetime comparison with a TypeError,
while an absent (None) timestamp is excluded without error. -/
theorem timed_items_string_crash :
    Dashboard.build_due_tasks 0 [⟨0, some (.str "tomorrow")⟩] =
      .error "TypeError: a datetime is not comparable with a str" ∧
    Dashboard.build_upcoming 0 [⟨0, some (.str "soon")⟩] =
      .error "TypeError: a str is not comparable with a datetime" ∧
    Dashboard.build_due_tasks 0 [⟨0, none⟩] = .ok [] ∧
    Dashboard.build_upcoming 0 [⟨1, none⟩] = .ok [] :=
  ⟨rfl, rfl, rfl, rfl⟩

/-- Witness for C5: the window characterization applied to one task due
exactly at start-of-tomorrow relative to now = 0. -/
theorem due_soon_window_applied :
    ∃ l, Dashboard.build_due_tasks 0 [⟨0, some (.dt 86400000000)⟩] = .ok l ∧
      (∀ t, t ∈ l ↔ t ∈ [(⟨0, some (.dt 86400000000)⟩ : Dashboard.TaskRec)] ∧
        ∃ v : ℤ, t.due_at = some (.dt v) ∧
        Dashboard.usPerDay * ((0:ℤ) / Dashboard.usPerDay) ≤ v ∧
        v < Dashboard.usPerDay * ((0:ℤ) / Dashboard.usPerDay) + 2 * Dashboard.usPerDay) ∧
      l.Sorted Dashboard.taskLE :=
  Dashboard.due_soon_window 0 _ (by
    intro t ht
    rw [List.mem_singleton] at ht
    subst ht
    exact ⟨86400000000, rfl⟩)
